import Mathlib

/-!
Verification of the identifier allocation and redirect-resolution subsystem
of the qrlocal URL shortener (src/index.js), via a shallow embedding.

The SQLite table `redirects` is modelled as a list of rows in insertion
order (SQLite scans in rowid order, which equals insertion order for this
append-only-plus-delete table, so `db.get` without ORDER BY returns the
earliest matching row). Timestamps are abstract naturals supplied by the
caller. The MD5 digest of `url + timestamp + random + attempts` is an
entropy source only, so each attempt index is mapped to its hex digest by
an oracle `digest : Nat -> String`.
-/

namespace QrLocal

/-- One row of the `redirects` table (initDatabase, src/index.js lines 83-95):
`id TEXT PRIMARY KEY, url TEXT NOT NULL, created DATETIME, visits INTEGER
DEFAULT 0, last_visit DATETIME` (nullable). -/
structure RedirectRow where
  id : String
  url : String
  created : Nat
  visits : Nat
  lastVisit : Option Nat
deriving Repr, DecidableEq

/-- The `redirects` table, rows in insertion (rowid) order. -/
abbrev Store := List RedirectRow

/-- `SELECT * FROM redirects WHERE id = ?` via `db.get`: first row whose id
matches exactly (TEXT comparison in SQLite is case-sensitive binary). -/
def dbGetById (s : Store) (i : String) : Option RedirectRow :=
  s.find? (fun r => r.id == i)

/-- `SELECT * FROM redirects WHERE url = ?` via `db.get`: first row in scan
(insertion) order whose url matches exactly. -/
def dbGetByUrl (s : Store) (u : String) : Option RedirectRow :=
  s.find? (fun r => r.url == u)

/-- `INSERT INTO redirects (id, url) VALUES (?, ?)`: fails (err in the
callback) when the PRIMARY KEY constraint on `id` is violated; otherwise
appends a row with `created` defaulted to the current timestamp, `visits`
defaulted to 0 and `last_visit` NULL. -/
def dbInsert (s : Store) (i u : String) (now : Nat) : Option Store :=
  if s.any (fun r => r.id == i) then none
  else some (s ++ [⟨i, u, now, 0, none⟩])

/-- `UPDATE redirects SET visits = visits + 1, last_visit = CURRENT_TIMESTAMP
WHERE id = ?` (src/index.js lines 178-184). -/
def dbRecordVisit (s : Store) (i : String) (now : Nat) : Store :=
  s.map (fun r => if r.id == i then { r with visits := r.visits + 1, lastVisit := some now } else r)

/-- `DELETE FROM redirects WHERE id = ?` (src/index.js line 614). -/
def dbDelete (s : Store) (i : String) : Store :=
  s.filter (fun r => !(r.id == i))

/-- The test `/^[A-Z2-7]+$/i.test(c)` on a single character: with the `i`
flag, `[A-Z]` matches both cases, and `[2-7]` the digits 2-7. -/
def matchesBase32CI (c : Char) : Bool :=
  (65 ≤ c.toNat && c.toNat ≤ 90) || (97 ≤ c.toNat && c.toNat ≤ 122) ||
    (50 ≤ c.toNat && c.toNat ≤ 55)

/-- `/^[A-Z2-7]+$/i.test(key)` (src/index.js line 365): at least one
character, all matching the class. -/
def regexBase32Test (k : String) : Bool :=
  !k.data.isEmpty && k.data.all matchesBase32CI

/-- ASCII lowercasing of one character, as `String.prototype.toLowerCase`
acts on the characters these claims exercise. -/
def jsCharToLower (c : Char) : Char :=
  match c with
  | 'A' => 'a' | 'B' => 'b' | 'C' => 'c' | 'D' => 'd' | 'E' => 'e' | 'F' => 'f'
  | 'G' => 'g' | 'H' => 'h' | 'I' => 'i' | 'J' => 'j' | 'K' => 'k' | 'L' => 'l'
  | 'M' => 'm' | 'N' => 'n' | 'O' => 'o' | 'P' => 'p' | 'Q' => 'q' | 'R' => 'r'
  | 'S' => 's' | 'T' => 't' | 'U' => 'u' | 'V' => 'v' | 'W' => 'w' | 'X' => 'x'
  | 'Y' => 'y' | 'Z' => 'z'
  | c => c

/-- `s.toLowerCase()`. -/
def jsToLower (s : String) : String :=
  ⟨s.data.map jsCharToLower⟩

/-- The 32-symbol base32 alphabet of the spec, uppercase form. -/
def base32Alphabet : List Char :=
  "ABCDEFGHIJKLMNOPQRSTUVWXYZ234567".data

/-- The eight bits of a byte, most significant first. -/
def byteToBits (b : Nat) : List Bool :=
  [b / 128 % 2 == 1, b / 64 % 2 == 1, b / 32 % 2 == 1, b / 16 % 2 == 1,
   b / 8 % 2 == 1, b / 4 % 2 == 1, b / 2 % 2 == 1, b % 2 == 1]

/-- Bit stream of a byte sequence. -/
def bytesToBits : List Nat → List Bool
  | [] => []
  | b :: rest => byteToBits b ++ bytesToBits rest

/-- Value of a big-endian bit list. -/
def bitsVal : List Bool → Nat
  | [] => 0
  | b :: rest => (if b then 1 else 0) * 2 ^ rest.length + bitsVal rest

/-- Split a bit stream into 5-bit groups, zero-padding the final group. -/
def chunks5 : List Bool → List (List Bool)
  | [] => []
  | b1 :: b2 :: b3 :: b4 :: b5 :: rest => [b1, b2, b3, b4, b5] :: chunks5 rest
  | [b1] => [[b1, false, false, false, false]]
  | [b1, b2] => [[b1, b2, false, false, false]]
  | [b1, b2, b3] => [[b1, b2, b3, false, false]]
  | [b1, b2, b3, b4] => [[b1, b2, b3, b4, false]]

/-- Modelled from the spec: `base32.encode` of the npm `base32` dependency is
not part of this repository. Section 4.1 contracts `encode(bytes) -> string`
to produce only the 32-symbol alphabet matching `[A-Z2-7]` case-insensitively
with no padding retained, which is RFC 4648 base32 without padding: the byte
stream is read 5 bits at a time, each group indexing the alphabet. -/
def base32encodeBytes (bs : List Nat) : String :=
  ⟨(chunks5 (bytesToBits bs)).map (fun chunk => base32Alphabet.getD (bitsVal chunk) 'A')⟩

/-- `s.substring(0, n)` on the ASCII strings these claims exercise: the
first `n` characters. -/
def strTake (n : Nat) (s : String) : String :=
  ⟨s.data.take n⟩

/-- One candidate of `generateBase32Id` (src/index.js line 148):
`base32.encode(hash).toLowerCase().replace(/=/g, "").substring(0, maxBase32Length)`
where `hash` is the hex digest string, whose character codes are the bytes
encoded. The model has no padding so the replace is a no-op. -/
def candidateId (maxBase32Length : Nat) (digestHex : String) : String :=
  strTake maxBase32Length (jsToLower (base32encodeBytes (digestHex.data.map Char.toNat)))

/-- `const maxAttempts = 10` (src/index.js line 140). -/
def maxAttempts : Nat := 10

/-- The `while (attempts < maxAttempts)` loop of `generateBase32Id`, with
`fuel = maxAttempts - attempts` remaining iterations: compute the candidate
for this attempt, return it if no row with that id exists, otherwise retry
with the next attempt index; `none` models the throw after the last attempt. -/
def genLoop (s : Store) (digest : Nat → String) (maxBase32Length : Nat) :
    Nat → Nat → Option String
  | _, 0 => none
  | attempts, fuel + 1 =>
    let id := candidateId maxBase32Length (digest attempts)
    if (dbGetById s id).isSome then genLoop s digest maxBase32Length (attempts + 1) fuel
    else some id

/-- `generateBase32Id(url)` (src/index.js lines 138-166): up to `maxAttempts`
candidates, each from the digest of that attempt; `none` models the thrown
`Unable to generate unique ID after maximum attempts`. -/
def generateBase32Id (s : Store) (digest : Nat → String) (maxBase32Length : Nat) :
    Option String :=
  genLoop s digest maxBase32Length 0 maxAttempts

/-- A JSON body value, as far as the handler inspects one: the `key` field
may be a string, a number, a boolean or null. -/
inductive JVal
  | jstr (s : String)
  | jnum (n : Int)
  | jbool (b : Bool)
  | jnull
deriving Repr, DecidableEq

/-- JavaScript truthiness of a body value: the empty string, 0, false and
null are falsy. -/
def truthy : JVal → Bool
  | .jstr s => !s.isEmpty
  | .jnum n => !(n == 0)
  | .jbool b => b
  | .jnull => false

/-- Truthiness of `req.body.key`, where `none` is an absent field
(undefined, falsy). -/
def bodyTruthy : Option JVal → Bool
  | none => false
  | some v => truthy v

/-- Outcome of `POST /api/add`, by response: 400 missing url, 400 invalid
url, 400 bad custom key (with the response message), 409 duplicate key,
500 after a failed generation, 500 from the INSERT callback, or the created
response carrying `base32_id` and `original_url`. -/
inductive AddResult
  | urlRequired
  | invalidUrl
  | invalidKeyFormat (msg : String)
  | duplicateKey
  | allocExhausted
  | dbError
  | created (id url : String)
deriving Repr, DecidableEq

/-- Message of the combined type and length check (src/index.js line 360). -/
def keyLengthMsg (maxBase32Length : Nat) : String :=
  "Custom key must be a string between 1 and " ++ toString maxBase32Length ++ " characters"

/-- Message of the character-class check (src/index.js line 367). -/
def keyCharsMsg : String :=
  "Custom key must contain only base32 characters (A-Z, 2-7)"

/-- The INSERT at src/index.js lines 398-444: an error in the callback
yields 500 `Database error`, success responds with the id and the url. -/
def insertRespond (s : Store) (i u : String) (now : Nat) : AddResult × Store :=
  match dbInsert s i u now with
  | none => (.dbError, s)
  | some s2 => (.created i u, s2)

/-- `POST /api/add` (src/index.js lines 341-449): require a truthy `url`,
validate it, then branch on `if (key)`. A truthy string key is checked for
type and length, then against `/^[A-Z2-7]+$/i`, then for existence after
lowercasing; a truthy non-string key fails the `typeof` check. A falsy or
absent key takes the generated-id path. `validUrl` abstracts the WHATWG
`new URL(url)` parse that the code wraps in try/catch. -/
def apiAdd (s : Store) (validUrl : String → Bool) (digest : Nat → String)
    (maxBase32Length now : Nat) (url : String) (key : Option JVal) :
    AddResult × Store :=
  if url.isEmpty then (.urlRequired, s)
  else if !(validUrl url) then (.invalidUrl, s)
  else if bodyTruthy key then
    match key with
    | some (.jstr k) =>
      if k.length == 0 || decide (maxBase32Length < k.length) then
        (.invalidKeyFormat (keyLengthMsg maxBase32Length), s)
      else if !(regexBase32Test k) then
        (.invalidKeyFormat keyCharsMsg, s)
      else
        match dbGetById s (jsToLower k) with
        | some _ => (.duplicateKey, s)
        | none => insertRespond s (jsToLower k) url now
    | _ => (.invalidKeyFormat (keyLengthMsg maxBase32Length), s)
  else
    match generateBase32Id s digest maxBase32Length with
    | none => (.allocExhausted, s)
    | some i => insertRespond s i url now

/-- The generated-id path of `POST /api/add` when a concurrent request
commits between the existence check inside `generateBase32Id` (which sees
`sCheck`) and the INSERT (which runs against `sInsert`): node-sqlite3 queues
each statement separately, so other requests may interleave between the
two. `apiAdd` on the generated path is the race-free instance
`sCheck = sInsert`. -/
def apiAddGeneratedRaced (sCheck sInsert : Store) (digest : Nat → String)
    (maxBase32Length now : Nat) (url : String) : AddResult × Store :=
  match generateBase32Id sCheck digest maxBase32Length with
  | none => (.allocExhausted, sInsert)
  | some i => insertRespond sInsert i url now

/-- Outcome of the public redirect `GET /:base32id`: a redirect to the
stored url, or 404 `Redirect not found`. -/
inductive ResolveResult
  | redirect (url : String)
  | notFound
deriving Repr, DecidableEq

/-- `GET /:base32id` (src/index.js lines 168-190): lowercase the path
parameter, look it up; on a hit fire the visit UPDATE and redirect to the
stored url, on a miss return 404 leaving the store untouched. -/
def redirectGet (s : Store) (rawId : String) (now : Nat) : ResolveResult × Store :=
  match dbGetById s (jsToLower rawId) with
  | some row => (.redirect row.url, dbRecordVisit s (jsToLower rawId) now)
  | none => (.notFound, s)

/-- Outcome of `GET /api/check`: 400s, the exists-true response carrying
`base32_id`, `original_url`, `visits` and `last_visit`, or exists-false. -/
inductive CheckResult
  | urlRequired
  | invalidUrl
  | found (id url : String) (visits : Nat) (lastVisit : Option Nat)
  | absent
deriving Repr, DecidableEq

/-- `GET /api/check` (src/index.js lines 451-490): require and validate the
`url` query parameter, then return the first row whose `url` matches
exactly, or exists-false. Read-only. -/
def apiCheck (s : Store) (validUrl : String → Bool) (url : String) : CheckResult :=
  if url.isEmpty then .urlRequired
  else if !(validUrl url) then .invalidUrl
  else
    match dbGetByUrl s url with
    | some row => .found row.id row.url row.visits row.lastVisit
    | none => .absent

/-- `DELETE /api/delete/:id` (src/index.js lines 595-628): look up the
lowercased id; on a miss 404 with no state change, on a hit delete the row
and echo `deleted_id` and `deleted_url`. The 400 branch for a missing path
parameter is unreachable through the router and is not modelled. -/
def apiDelete (s : Store) (rawId : String) : Option (String × String) × Store :=
  match dbGetById s (jsToLower rawId) with
  | some row => (some (row.id, row.url), dbDelete s (jsToLower rawId))
  | none => (none, s)

/-! ## Helper lemmas -/

/-- Indexing the alphabet with a default always lands in the alphabet. -/
theorem getD_alphabet_mem (n : Nat) : base32Alphabet.getD n 'A' ∈ base32Alphabet := by
  rw [List.getD_eq_getElem?_getD]
  cases h : base32Alphabet[n]? with
  | none => simp only [Option.getD_none]; decide
  | some c => simpa using List.getElem?_mem h

/-- Every character of an encoded byte sequence is an alphabet symbol. -/
theorem encode_chars_mem (bs : List Nat) :
    ∀ c ∈ (base32encodeBytes bs).data, c ∈ base32Alphabet := by
  intro c hc
  simp only [base32encodeBytes] at hc
  obtain ⟨chunk, _, rfl⟩ := List.mem_map.mp hc
  exact getD_alphabet_mem _

/-- Lowercasing any alphabet symbol gives a character matching the class. -/
theorem alphabet_lower_matches :
    ∀ c ∈ base32Alphabet, matchesBase32CI (jsCharToLower c) = true := by decide

/-- Lowercasing preserves the character class of the key regex. -/
theorem matchesBase32CI_toLower (c : Char) (h : matchesBase32CI c = true) :
    matchesBase32CI (jsCharToLower c) = true := by
  unfold jsCharToLower
  split <;> first | decide | exact h

/-- Every character of a generated candidate matches the class. -/
theorem candidateId_chars (m : Nat) (d : String) :
    ∀ c ∈ (candidateId m d).data, matchesBase32CI c = true := by
  intro c hc
  simp only [candidateId, strTake, jsToLower] at hc
  have hmem := List.take_subset m _ hc
  obtain ⟨c0, hc0, rfl⟩ := List.mem_map.mp hmem
  exact alphabet_lower_matches c0 (encode_chars_mem _ c0 hc0)

/-- The bit stream of a byte sequence has eight bits per byte. -/
theorem bytesToBits_length (bs : List Nat) : (bytesToBits bs).length = 8 * bs.length := by
  induction bs with
  | nil => rfl
  | cons b rest ih =>
    simp only [bytesToBits, byteToBits, List.length_append, ih, List.length_cons]
    simp only [List.length_nil]
    omega

/-- Grouping into 5-bit chunks rounds the bit count up. -/
theorem chunks5_length (bits : List Bool) : (chunks5 bits).length = (bits.length + 4) / 5 := by
  induction bits using chunks5.induct <;> (simp [chunks5, *]; try omega)

/-- Length of an encoded byte sequence. -/
theorem base32encodeBytes_length (bs : List Nat) :
    (base32encodeBytes bs).length = (8 * bs.length + 4) / 5 := by
  show (List.map _ (chunks5 (bytesToBits bs))).length = _
  rw [List.length_map, chunks5_length, bytesToBits_length]

/-- A candidate from a 32-character digest has exactly the configured
length once that is at most 20 (the encoded form has 52 characters). -/
theorem candidateId_length (m : Nat) (d : String) (hm : m ≤ 20) (hd : d.length = 32) :
    (candidateId m d).length = m := by
  show (((base32encodeBytes (d.data.map Char.toNat)).data.map jsCharToLower).take m).length = m
  rw [List.length_take, List.length_map]
  have h1 : (base32encodeBytes (d.data.map Char.toNat)).data.length = 52 := by
    have h2 := base32encodeBytes_length (d.data.map Char.toNat)
    rw [show (base32encodeBytes (d.data.map Char.toNat)).length
        = (base32encodeBytes (d.data.map Char.toNat)).data.length from rfl] at h2
    rw [List.length_map] at h2
    rw [show d.data.length = d.length from rfl, hd] at h2
    omega
  omega

/-- Absence under `find?` coincides with the negated `any` guard of the
INSERT model. -/
theorem dbGetById_none_iff_not_any (s : Store) (i : String) :
    dbGetById s i = none ↔ s.any (fun r => r.id == i) = false := by
  simp [dbGetById, List.find?_eq_none, List.any_eq_false]

/-- If every attempt the loop can still make collides, the loop exhausts. -/
theorem genLoop_eq_none_of_all_collide (s : Store) (digest : Nat → String) (m : Nat) :
    ∀ fuel lo,
      (∀ a, lo ≤ a → a < lo + fuel →
        (dbGetById s (candidateId m (digest a))).isSome = true) →
      genLoop s digest m lo fuel = none := by
  intro fuel
  induction fuel with
  | zero => intro lo _; rfl
  | succ n ih =>
    intro lo h
    have hc := h lo (Nat.le_refl lo) (by omega)
    simp only [genLoop, hc, if_true]
    exact ih (lo + 1) (fun a h1 h2 => h a (by omega) (by omega))

/-- A returned identifier is collision-free in the checked store and is
the candidate of one of the attempts the loop was allowed. -/
theorem genLoop_some_spec (s : Store) (digest : Nat → String) (m : Nat) :
    ∀ fuel lo i, genLoop s digest m lo fuel = some i →
      dbGetById s i = none ∧
        ∃ a, lo ≤ a ∧ a < lo + fuel ∧ i = candidateId m (digest a) := by
  intro fuel
  induction fuel with
  | zero => intro lo i h; exact absurd h (by simp [genLoop])
  | succ n ih =>
    intro lo i h
    simp only [genLoop] at h
    by_cases hc : (dbGetById s (candidateId m (digest lo))).isSome
    · rw [if_pos hc] at h
      obtain ⟨h1, a, ha1, ha2, ha3⟩ := ih (lo + 1) i h
      exact ⟨h1, a, by omega, by omega, ha3⟩
    · rw [if_neg hc] at h
      cases h
      refine ⟨?_, lo, Nat.le_refl lo, by omega, rfl⟩
      cases hdb : dbGetById s (candidateId m (digest lo)) with
      | none => rfl
      | some r => exact absurd (by simp [hdb]) hc

/-- The loop only consults the digests of the attempts it was allowed. -/
theorem genLoop_digest_congr (s : Store) (d1 d2 : Nat → String) (m : Nat) :
    ∀ fuel lo, (∀ a, lo ≤ a → a < lo + fuel → d1 a = d2 a) →
      genLoop s d1 m lo fuel = genLoop s d2 m lo fuel := by
  intro fuel
  induction fuel with
  | zero => intro lo _; rfl
  | succ n ih =>
    intro lo h
    have hd := h lo (Nat.le_refl lo) (by omega)
    simp only [genLoop, hd]
    by_cases hc : (dbGetById s (candidateId m (d2 lo))).isSome
    · simp only [hc, if_true]
      exact ih (lo + 1) (fun a h1 h2 => h a (by omega) (by omega))
    · simp only [Bool.not_eq_true] at hc
      simp only [hc, Bool.false_eq_true, if_false]

/-- Inversion of a successful add (either path): the echoed url is the
request url, the new store is the old one with the fresh row appended, the
new id was absent, and the url checks passed. -/
theorem apiAdd_created_inv (s : Store) (validUrl : String → Bool) (digest : Nat → String)
    (m now : Nat) (url : String) (key : Option JVal) (i u2 : String) (s2 : Store)
    (h : apiAdd s validUrl digest m now url key = (.created i u2, s2)) :
    u2 = url ∧ s2 = s ++ [⟨i, url, now, 0, none⟩] ∧ dbGetById s i = none ∧
      url.isEmpty = false ∧ validUrl url = true := by
  unfold apiAdd at h
  split at h
  · exact absurd (congrArg Prod.fst h) (by simp)
  next hu =>
    split at h
    · exact absurd (congrArg Prod.fst h) (by simp)
    next hv =>
      split at h
      · split at h
        next k =>
          split at h
          · exact absurd (congrArg Prod.fst h) (by simp)
          · split at h
            · exact absurd (congrArg Prod.fst h) (by simp)
            · split at h
              · exact absurd (congrArg Prod.fst h) (by simp)
              next hdb =>
                unfold insertRespond at h
                split at h
                next hins => exact absurd (congrArg Prod.fst h) (by simp)
                next s3 hins =>
                  unfold dbInsert at hins
                  split at hins
                  · exact absurd hins (by simp)
                  next hany =>
                    obtain ⟨rfl⟩ := hins
                    obtain ⟨h1, h2⟩ := Prod.mk.injEq .. ▸ h
                    obtain ⟨rfl, rfl⟩ := AddResult.created.injEq .. ▸ h1
                    refine ⟨rfl, h2.symm, ?_, by simp_all, by simp_all⟩
                    rw [dbGetById_none_iff_not_any]
                    simpa using hany
        · exact absurd (congrArg Prod.fst h) (by simp)
      · split at h
        · exact absurd (congrArg Prod.fst h) (by simp)
        next i0 hgen =>
          unfold insertRespond at h
          split at h
          next hins => exact absurd (congrArg Prod.fst h) (by simp)
          next s3 hins =>
            unfold dbInsert at hins
            split at hins
            · exact absurd hins (by simp)
            next hany =>
              obtain ⟨rfl⟩ := hins
              obtain ⟨h1, h2⟩ := Prod.mk.injEq .. ▸ h
              obtain ⟨rfl, rfl⟩ := AddResult.created.injEq .. ▸ h1
              refine ⟨rfl, h2.symm, ?_, by simp_all, by simp_all⟩
              rw [dbGetById_none_iff_not_any]
              simpa using hany

/-- Inversion of a successful add through the custom-key path: the stored
id is the lowercased key, the key passed the length and character checks,
and the lowercased key was absent before the insert. -/
theorem apiAdd_custom_inv (s : Store) (validUrl : String → Bool) (digest : Nat → String)
    (m now : Nat) (url k i u2 : String) (s2 : Store)
    (hk : k.isEmpty = false)
    (h : apiAdd s validUrl digest m now url (some (.jstr k)) = (.created i u2, s2)) :
    i = jsToLower k ∧ u2 = url ∧ s2 = s ++ [⟨jsToLower k, url, now, 0, none⟩] ∧
      dbGetById s (jsToLower k) = none ∧ regexBase32Test k = true ∧ k.length ≤ m := by
  unfold apiAdd at h
  split at h
  · exact absurd (congrArg Prod.fst h) (by simp)
  split at h
  · exact absurd (congrArg Prod.fst h) (by simp)
  rw [if_pos (by simp [bodyTruthy, truthy, hk])] at h
  split at h
  next k' heq =>
    obtain ⟨rfl⟩ : k' = k := by cases heq; rfl
    split at h
    · exact absurd (congrArg Prod.fst h) (by simp)
    next hlen =>
      split at h
      · exact absurd (congrArg Prod.fst h) (by simp)
      next hre =>
        split at h
        · exact absurd (congrArg Prod.fst h) (by simp)
        next hdb =>
          unfold insertRespond at h
          split at h
          next hins => exact absurd (congrArg Prod.fst h) (by simp)
          next s3 hins =>
            unfold dbInsert at hins
            split at hins
            · exact absurd hins (by simp)
            obtain ⟨rfl⟩ := hins
            obtain ⟨h1, h2⟩ := Prod.mk.injEq .. ▸ h
            obtain ⟨rfl, rfl⟩ := AddResult.created.injEq .. ▸ h1
            simp only [Bool.or_eq_false_iff, beq_eq_false_iff_ne, decide_eq_false_iff_not,
              Bool.not_eq_true] at hlen hre
            exact ⟨rfl, rfl, h2.symm, hdb, by simpa using hre, by omega⟩
  next hne => exact absurd rfl (hne k)

/-- Either a request leaves the store unchanged, or it responded with the
created result. -/
theorem apiAdd_res_cases (s : Store) (validUrl : String → Bool) (digest : Nat → String)
    (m now : Nat) (url : String) (key : Option JVal) (res : AddResult) (s2 : Store)
    (h : apiAdd s validUrl digest m now url key = (res, s2)) :
    s2 = s ∨ ∃ i u2, res = .created i u2 := by
  unfold apiAdd insertRespond at h
  repeat' split at h
  all_goals first
    | exact Or.inr ⟨_, _, ((Prod.mk.injEq .. ▸ h).1).symm⟩
    | exact Or.inl ((Prod.mk.injEq .. ▸ h).2).symm

/-- Inversion of a successful add with a falsy or absent key: the id came
out of the generator and the fresh row was appended. -/
theorem apiAdd_generated_inv (s : Store) (validUrl : String → Bool) (digest : Nat → String)
    (m now : Nat) (url : String) (key : Option JVal) (i u2 : String) (s2 : Store)
    (hkey : bodyTruthy key = false)
    (h : apiAdd s validUrl digest m now url key = (.created i u2, s2)) :
    generateBase32Id s digest m = some i ∧ u2 = url ∧
      s2 = s ++ [⟨i, url, now, 0, none⟩] := by
  unfold apiAdd at h
  split at h
  · exact absurd (congrArg Prod.fst h) (by simp)
  split at h
  · exact absurd (congrArg Prod.fst h) (by simp)
  rw [if_neg (by simp [hkey])] at h
  split at h
  · exact absurd (congrArg Prod.fst h) (by simp)
  next i0 hgen =>
    unfold insertRespond at h
    split at h
    next hins => exact absurd (congrArg Prod.fst h) (by simp)
    next s3 hins =>
      unfold dbInsert at hins
      split at hins
      · exact absurd hins (by simp)
      obtain ⟨rfl⟩ := hins
      obtain ⟨h1, h2⟩ := Prod.mk.injEq .. ▸ h
      obtain ⟨rfl, rfl⟩ := AddResult.created.injEq .. ▸ h1
      exact ⟨hgen, rfl, h2.symm⟩

/-- Every character of the identifier matches the base32 character class. -/
def idCharsOk (i : String) : Prop :=
  ∀ c ∈ i.data, matchesBase32CI c = true

/-- Every identifier in the store matches the base32 character class. -/
def storeCharsOk (s : Store) : Prop :=
  ∀ r ∈ s, idCharsOk r.id

/-- The constant all-zeros hex digest oracle, used at concrete inputs. -/
def digestZero : Nat → String := fun _ => "00000000000000000000000000000000"

/-- The identifier of any created response matches the class: through the
custom path it is the lowercased key, which passed the regex; through the
generated path it is a truncated encoding, all alphabet symbols. -/
theorem apiAdd_created_id_chars (s : Store) (validUrl : String → Bool) (digest : Nat → String)
    (m now : Nat) (url : String) (key : Option JVal) (i u2 : String) (s2 : Store)
    (h : apiAdd s validUrl digest m now url key = (.created i u2, s2)) :
    idCharsOk i := by
  by_cases hkey : bodyTruthy key = true
  · match key, hkey with
    | some (.jstr k), hkey =>
      have hk : k.isEmpty = false := by
        simpa [bodyTruthy, truthy] using hkey
      obtain ⟨rfl, _, _, _, hre, _⟩ :=
        apiAdd_custom_inv s validUrl digest m now url k i u2 s2 hk h
      intro c hc
      simp only [jsToLower] at hc
      obtain ⟨c0, hc0, rfl⟩ := List.mem_map.mp hc
      have hall : k.data.all matchesBase32CI = true := by
        simp only [regexBase32Test, Bool.and_eq_true] at hre
        exact hre.2
      exact matchesBase32CI_toLower c0 (List.all_eq_true.mp hall c0 hc0)
    | some (.jnum n), hkey =>
      unfold apiAdd insertRespond at h
      repeat' split at h
      all_goals simp_all [bodyTruthy]
    | some (.jbool b), hkey =>
      unfold apiAdd insertRespond at h
      repeat' split at h
      all_goals simp_all [bodyTruthy]
    | some .jnull, hkey =>
      exact absurd hkey (by simp [bodyTruthy, truthy])
  · obtain ⟨hgen, _, _⟩ :=
      apiAdd_generated_inv s validUrl digest m now url key i u2 s2
        (by simpa using hkey) h
    obtain ⟨_, a, _, _, rfl⟩ := genLoop_some_spec s digest m maxAttempts 0 i hgen
    exact candidateId_chars m (digest a)

/-! ## Claims -/

/-- C1: every identifier stored by the system — generated or custom — has,
after lowercase normalization, only characters of the 32-symbol base32
alphabet matching `[A-Z2-7]` case-insensitively; in particular the string
returned by `generateBase32Id` has only such characters and no padding
character. -/
theorem stored_ids_use_base32_alphabet
    (s : Store) (validUrl : String → Bool) (digest : Nat → String)
    (m now now2 : Nat) (url raw : String) (key : Option JVal)
    (hs : storeCharsOk s) :
    storeCharsOk (apiAdd s validUrl digest m now url key).2 ∧
    storeCharsOk (redirectGet s raw now2).2 ∧
    storeCharsOk (apiDelete s raw).2 ∧
    (∀ i, generateBase32Id s digest m = some i →
      idCharsOk i ∧ ('=' : Char) ∉ i.data) := by
  refine ⟨?_, ?_, ?_, ?_⟩
  · rcases h : apiAdd s validUrl digest m now url key with ⟨res, s2⟩
    rcases apiAdd_res_cases s validUrl digest m now url key res s2 h with rfl | ⟨i, u2, rfl⟩
    · exact hs
    · have hchars := apiAdd_created_id_chars s validUrl digest m now url key i u2 s2 h
      obtain ⟨_, rfl, _, _, _⟩ := apiAdd_created_inv s validUrl digest m now url key i u2 s2 h
      intro r hr
      rcases List.mem_append.mp hr with hr | hr
      · exact hs r hr
      · simp only [List.mem_singleton] at hr
        subst hr
        exact hchars
  · rcases hdb : dbGetById s (jsToLower raw) with _ | row
    · simp only [redirectGet, hdb]
      exact hs
    · simp only [redirectGet, hdb]
      intro r hr
      obtain ⟨r0, hr0, rfl⟩ := List.mem_map.mp hr
      have := hs r0 hr0
      split <;> simpa using this
  · rcases hdb : dbGetById s (jsToLower raw) with _ | row
    · simp only [apiDelete, hdb]
      exact hs
    · simp only [apiDelete, hdb]
      intro r hr
      exact hs r (List.mem_filter.mp hr).1
  · intro i hi
    obtain ⟨_, a, _, _, rfl⟩ := genLoop_some_spec s digest m maxAttempts 0 i hi
    refine ⟨candidateId_chars m (digest a), fun hmem => ?_⟩
    exact absurd (candidateId_chars m (digest a) _ hmem) (by decide)

/-- Witness for C1: the empty store satisfies the invariant and the
theorem applies at concrete inputs. -/
theorem stored_ids_use_base32_alphabet_witness :
    storeCharsOk (apiAdd [] (fun _ => true) digestZero 7 0 "http://u" none).2 ∧
    storeCharsOk (redirectGet [] "x" 1).2 ∧
    storeCharsOk (apiDelete [] "x").2 ∧
    (∀ i, generateBase32Id [] digestZero 7 = some i →
      idCharsOk i ∧ ('=' : Char) ∉ i.data) :=
  stored_ids_use_base32_alphabet [] (fun _ => true) digestZero 7 0 1 "http://u" "x" none
    (fun r hr => absurd hr (by simp))

/-- C4: every successful add without a custom key creates an identifier of
length exactly `maxBase32Length` (configured in 1..20); in particular its
length is between 1 and `maxBase32Length`. -/
theorem generated_id_length_exact
    (s : Store) (validUrl : String → Bool) (digest : Nat → String)
    (m now : Nat) (url : String) (key : Option JVal)
    (hm1 : 1 ≤ m) (hm2 : m ≤ 20)
    (hd : ∀ a, (digest a).length = 32)
    (hkey : bodyTruthy key = false) :
    (∀ i, generateBase32Id s digest m = some i → i.length = m) ∧
    (∀ i u2 s2, apiAdd s validUrl digest m now url key = (.created i u2, s2) →
      i.length = m ∧ 1 ≤ i.length ∧ i.length ≤ m) := by
  have hgenlen : ∀ i, generateBase32Id s digest m = some i → i.length = m := by
    intro i hi
    obtain ⟨_, a, _, _, rfl⟩ := genLoop_some_spec s digest m maxAttempts 0 i hi
    exact candidateId_length m (digest a) hm2 (hd a)
  refine ⟨hgenlen, fun i u2 s2 h => ?_⟩
  obtain ⟨hg, _, _⟩ := apiAdd_generated_inv s validUrl digest m now url key i u2 s2 hkey h
  have := hgenlen i hg
  omega

/-- Witness for C4 at the default length 7 with the all-zeros digest. -/
theorem generated_id_length_exact_witness :
    (1 ≤ 7 ∧ 7 ≤ 20 ∧ (∀ a, (digestZero a).length = 32) ∧
      bodyTruthy (none : Option JVal) = false) ∧
    ((∀ i, generateBase32Id [] digestZero 7 = some i → i.length = 7) ∧
     (∀ i u2 s2, apiAdd [] (fun _ => true) digestZero 7 0 "http://u" none
        = (.created i u2, s2) → i.length = 7 ∧ 1 ≤ i.length ∧ i.length ≤ 7)) :=
  ⟨⟨by decide, by decide, fun _ => rfl, rfl⟩,
    generated_id_length_exact [] (fun _ => true) digestZero 7 0 "http://u" none
      (by decide) (by decide) (fun _ => rfl) rfl⟩

/-- C5: the allocator makes at most `maxAttempts` (10) attempts: if every
candidate of those attempts collides, the keyless add fails with the
allocation-exhausted server error instead of looping; and the result never
depends on digests beyond the first 10 attempts. -/
theorem allocator_attempts_bounded
    (s : Store) (validUrl : String → Bool) (digest digest2 : Nat → String)
    (m now : Nat) (url : String) (key : Option JVal)
    (hkey : bodyTruthy key = false)
    (hu : url.isEmpty = false) (hv : validUrl url = true)
    (hall : ∀ a, a < maxAttempts →
      (dbGetById s (candidateId m (digest a))).isSome = true) :
    apiAdd s validUrl digest m now url key = (.allocExhausted, s) ∧
    ((∀ a, a < maxAttempts → digest a = digest2 a) →
      generateBase32Id s digest m = generateBase32Id s digest2 m) := by
  constructor
  · unfold apiAdd
    rw [if_neg (by simp [hu]), if_neg (by simp [hv]), if_neg (by simp [hkey])]
    have hnone : generateBase32Id s digest m = none :=
      genLoop_eq_none_of_all_collide s digest m maxAttempts 0
        (fun a h1 h2 => hall a (by omega))
    rw [hnone]
  · intro hd
    exact genLoop_digest_congr s digest digest2 m maxAttempts 0
      (fun a h1 h2 => hd a (by omega))

/-- Witness for C5: a one-character space where the single candidate of the
constant digest is taken collides all 10 attempts. -/
theorem allocator_attempts_bounded_witness :
    ((∀ a, a < maxAttempts →
      (dbGetById [⟨"g", "http://old", 0, 0, none⟩]
        (candidateId 1 (digestZero a))).isSome = true)) ∧
    apiAdd [⟨"g", "http://old", 0, 0, none⟩] (fun _ => true) digestZero 1 5 "http://u" none
      = (.allocExhausted, [⟨"g", "http://old", 0, 0, none⟩]) ∧
    ((∀ a, a < maxAttempts → digestZero a = digestZero a) →
      generateBase32Id [⟨"g", "http://old", 0, 0, none⟩] digestZero 1
        = generateBase32Id [⟨"g", "http://old", 0, 0, none⟩] digestZero 1) :=
  ⟨by decide,
    (allocator_attempts_bounded [⟨"g", "http://old", 0, 0, none⟩] (fun _ => true)
      digestZero digestZero 1 5 "http://u" none rfl rfl rfl (by decide)).1,
    (allocator_attempts_bounded [⟨"g", "http://old", 0, 0, none⟩] (fun _ => true)
      digestZero digestZero 1 5 "http://u" none rfl rfl rfl (by decide)).2⟩

/-- C9: an add whose body carries a falsy `key` — the empty string, 0,
false or null — never reaches the custom-key validator: it behaves exactly
like a request without a key, and never returns the invalid-key error. -/
theorem falsy_key_is_ignored
    (s : Store) (validUrl : String → Bool) (digest : Nat → String)
    (m now : Nat) (url : String) (key : Option JVal)
    (hkey : bodyTruthy key = false) :
    apiAdd s validUrl digest m now url key = apiAdd s validUrl digest m now url none ∧
    (∀ msg, (apiAdd s validUrl digest m now url key).1 ≠ .invalidKeyFormat msg) := by
  have heq : apiAdd s validUrl digest m now url key
      = apiAdd s validUrl digest m now url none := by
    unfold apiAdd
    split
    · rfl
    split
    · rfl
    rw [if_neg (by simp [hkey]), if_neg (by simp [bodyTruthy])]
  refine ⟨heq, fun msg => ?_⟩
  rw [heq]
  unfold apiAdd
  split
  · simp
  split
  · simp
  rw [if_neg (by simp [bodyTruthy])]
  split
  · simp
  · unfold insertRespond
    split
    · simp
    · simp

/-- Witness for C9: the empty-string key behaves like an absent key. -/
theorem falsy_key_is_ignored_witness :
    apiAdd [] (fun _ => true) digestZero 7 0 "http://u" (some (.jstr ""))
      = apiAdd [] (fun _ => true) digestZero 7 0 "http://u" none ∧
    (∀ msg, (apiAdd [] (fun _ => true) digestZero 7 0 "http://u"
      (some (.jstr ""))).1 ≠ .invalidKeyFormat msg) :=
  falsy_key_is_ignored [] (fun _ => true) digestZero 7 0 "http://u" (some (.jstr "")) rfl

/-- C2 (evaluation at the failing input): when a concurrent insert commits
the candidate id between the existence check and the INSERT, the
generated-id path answers the 500 database error and does not retry: the
store is left unchanged and no further candidate is tried. The claim says
this duplicate rejection is treated as a collision and retried. -/
theorem insert_time_duplicate_is_fatal :
    apiAddGeneratedRaced [] [⟨"gaydamb", "http://other", 0, 0, none⟩]
      digestZero 7 1 "http://u"
      = (.dbError, [⟨"gaydamb", "http://other", 0, 0, none⟩]) := by decide

/-- C3 (counterexample): a request that supplies the custom key as the
empty string is not rejected with the invalid-key error — the validator is
bypassed and a fresh identifier is generated instead. -/
theorem empty_key_not_rejected :
    apiAdd [] (fun _ => true) digestZero 7 0 "http://u" (some (.jstr ""))
      = (.created "gaydamb" "http://u", [⟨"gaydamb", "http://u", 0, 0, none⟩]) ∧
    (apiAdd [] (fun _ => true) digestZero 7 0 "http://u" (some (.jstr ""))).1
      ≠ .invalidKeyFormat (keyLengthMsg 7) ∧
    (apiAdd [] (fun _ => true) digestZero 7 0 "http://u" (some (.jstr ""))).1
      ≠ .invalidKeyFormat keyCharsMsg := by decide

/-- C3 (amended): for every add request that supplies a truthy custom key,
the checks run in order with the first failure winning, before any store
access: a non-string or over-long candidate fails with the length message,
then a candidate with a character outside `[A-Z2-7]` (case-insensitive)
fails with the character message — both the invalid-key error — and only a
candidate passing both is lowercased and handed to the store lookup and
insert. An empty-string key never reaches the validator. -/
theorem custom_key_validator_order
    (s : Store) (validUrl : String → Bool) (digest : Nat → String)
    (m now : Nat) (url k : String)
    (hu : url.isEmpty = false) (hv : validUrl url = true)
    (hk : k.isEmpty = false) :
    (m < k.length →
      apiAdd s validUrl digest m now url (some (.jstr k))
        = (.invalidKeyFormat (keyLengthMsg m), s)) ∧
    (k.length ≤ m → regexBase32Test k = false →
      apiAdd s validUrl digest m now url (some (.jstr k))
        = (.invalidKeyFormat keyCharsMsg, s)) ∧
    (k.length ≤ m → regexBase32Test k = true →
      apiAdd s validUrl digest m now url (some (.jstr k))
        = (match dbGetById s (jsToLower k) with
           | some _ => (.duplicateKey, s)
           | none => insertRespond s (jsToLower k) url now)) ∧
    (∀ v : JVal, truthy v = true → (∀ k2, v ≠ .jstr k2) →
      apiAdd s validUrl digest m now url (some v)
        = (.invalidKeyFormat (keyLengthMsg m), s)) := by
  have hne : k.length ≠ 0 := by
    intro h0
    have hk2 : k = "" := String.ext (List.length_eq_zero.mp h0)
    subst hk2
    exact absurd hk (by decide)
  refine ⟨?_, ?_, ?_, ?_⟩
  · intro hlen
    unfold apiAdd
    rw [if_neg (by simp [hu]), if_neg (by simp [hv]),
      if_pos (by simp [bodyTruthy, truthy, hk])]
    split
    next k2 heq2 =>
      obtain ⟨rfl⟩ : k2 = k := by cases heq2; rfl
      rw [if_pos (by simp [hlen])]
    next hns => exact absurd rfl (hns k)
  · intro hlen hre
    unfold apiAdd
    rw [if_neg (by simp [hu]), if_neg (by simp [hv]),
      if_pos (by simp [bodyTruthy, truthy, hk])]
    split
    next k2 heq2 =>
      obtain ⟨rfl⟩ : k2 = k := by cases heq2; rfl
      rw [if_neg (by simp [hne]; omega), if_pos (by simp [hre])]
    next hns => exact absurd rfl (hns k)
  · intro hlen hre
    unfold apiAdd
    rw [if_neg (by simp [hu]), if_neg (by simp [hv]),
      if_pos (by simp [bodyTruthy, truthy, hk])]
    split
    next k2 heq2 =>
      obtain ⟨rfl⟩ : k2 = k := by cases heq2; rfl
      rw [if_neg (by simp [hne]; omega), if_neg (by simp [hre])]
    next hns => exact absurd rfl (hns k)
  · intro v hv2 hns
    unfold apiAdd
    rw [if_neg (by simp [hu]), if_neg (by simp [hv]),
      if_pos (by simp [bodyTruthy, hv2])]
    split
    next k2 heq2 =>
      exact absurd (by cases heq2; rfl) (hns k2)
    next => rfl

/-- Witness for C3 (amended): the key `MYKE!` is within length but fails
the character class and is rejected with the character message; an
over-long key fails with the length message. -/
theorem custom_key_validator_order_witness :
    ("http://u" : String).isEmpty = false ∧
    ("MYKE!" : String).isEmpty = false ∧
    (("MYKE!" : String).length ≤ 7 → regexBase32Test "MYKE!" = false →
      apiAdd [] (fun _ => true) digestZero 7 0 "http://u" (some (.jstr "MYKE!"))
        = (.invalidKeyFormat keyCharsMsg, [])) ∧
    ("MYKE!" : String).length ≤ 7 ∧ regexBase32Test "MYKE!" = false :=
  ⟨by decide, by decide,
    (custom_key_validator_order [] (fun _ => true) digestZero 7 0 "http://u" "MYKE!"
      rfl rfl (by decide)).2.1,
    by decide, by decide⟩

/-- Looking up after the visit UPDATE: the first matching row is the
updated form of the row found before the update. -/
theorem dbGetById_recordVisit (s : Store) (i j : String) (now : Nat) :
    dbGetById (dbRecordVisit s j now) i =
      (dbGetById s i).map (fun r =>
        if r.id == j then { r with visits := r.visits + 1, lastVisit := some now }
        else r) := by
  unfold dbGetById dbRecordVisit
  have hp : ((fun r : RedirectRow => r.id == i) ∘ (fun r =>
      if r.id == j then { r with visits := r.visits + 1, lastVisit := some now }
      else r)) = (fun r : RedirectRow => r.id == i) := by
    funext r
    by_cases h : r.id == j <;> simp [h, Function.comp]
  rw [List.find?_map, hp]

/-- Filtering with a predicate implied by the search predicate does not
change the first hit. -/
theorem find?_filter_of_imp {α : Type} (l : List α) (p q : α → Bool)
    (himp : ∀ a, p a = true → q a = true) :
    (l.filter q).find? p = l.find? p := by
  induction l with
  | nil => rfl
  | cons a l ih =>
    by_cases hq : q a = true
    · rw [List.filter_cons_of_pos hq]
      by_cases hp : p a = true
      · rw [List.find?_cons_of_pos _ hp, List.find?_cons_of_pos _ hp]
      · rw [List.find?_cons_of_neg _ hp, List.find?_cons_of_neg _ hp, ih]
    · rw [List.filter_cons_of_neg (by simpa using hq),
        List.find?_cons_of_neg _ (fun hp => hq (himp a hp)), ih]

/-- Filtering with a predicate excluding the search predicate empties the
search. -/
theorem find?_filter_none {α : Type} (l : List α) (p q : α → Bool)
    (h : ∀ a, q a = true → p a = false) :
    (l.filter q).find? p = none := by
  rw [List.find?_eq_none]
  intro x hx
  simp [h x (List.mem_filter.mp hx).2]

/-- C6: a row is created with `visits = 0` and NULL `last_visit`; visit
counters never decrease under add, resolve or delete; one resolution of an
existing id increments its counter by exactly one and sets the last-visit
time; and resolving a missing id returns not-found with the store
untouched. -/
theorem visit_count_behavior
    (s : Store) (validUrl : String → Bool) (digest : Nat → String)
    (m now nowR : Nat) (url raw : String) (key : Option JVal) :
    (∀ i u2 s2, apiAdd s validUrl digest m now url key = (.created i u2, s2) →
      dbGetById s2 i = some ⟨i, url, now, 0, none⟩) ∧
    (∀ i r r2, dbGetById s i = some r →
      dbGetById (apiAdd s validUrl digest m now url key).2 i = some r2 →
      r.visits ≤ r2.visits) ∧
    (∀ i r r2, dbGetById s i = some r →
      dbGetById (redirectGet s raw nowR).2 i = some r2 → r.visits ≤ r2.visits) ∧
    (∀ i r r2, dbGetById s i = some r →
      dbGetById (apiDelete s raw).2 i = some r2 → r.visits ≤ r2.visits) ∧
    (∀ r, dbGetById s (jsToLower raw) = some r →
      redirectGet s raw nowR
        = (.redirect r.url, dbRecordVisit s (jsToLower raw) nowR) ∧
      dbGetById (redirectGet s raw nowR).2 (jsToLower raw)
        = some { r with visits := r.visits + 1, lastVisit := some nowR }) ∧
    (dbGetById s (jsToLower raw) = none → redirectGet s raw nowR = (.notFound, s)) := by
  refine ⟨?_, ?_, ?_, ?_, ?_, ?_⟩
  · intro i u2 s2 h
    obtain ⟨_, rfl, hnone, _, _⟩ :=
      apiAdd_created_inv s validUrl digest m now url key i u2 s2 h
    unfold dbGetById at hnone ⊢
    rw [List.find?_append, hnone]
    simp
  · intro i r r2 h1 h2
    rcases h : apiAdd s validUrl digest m now url key with ⟨res, s2⟩
    rw [h] at h2
    rcases apiAdd_res_cases s validUrl digest m now url key res s2 h with rfl | ⟨i0, u0, rfl⟩
    · simp only at h2
      rw [h1] at h2
      cases h2
      exact Nat.le_refl _
    · obtain ⟨_, rfl, _, _, _⟩ :=
        apiAdd_created_inv s validUrl digest m now url key i0 u0 s2 h
      simp only at h2
      unfold dbGetById at h1 h2
      rw [List.find?_append, h1] at h2
      simp only [Option.or_some] at h2
      cases h2
      exact Nat.le_refl _
  · intro i r r2 h1 h2
    rcases hdb : dbGetById s (jsToLower raw) with _ | row
    · simp only [redirectGet, hdb] at h2
      rw [h1] at h2
      cases h2
      exact Nat.le_refl _
    · simp only [redirectGet, hdb] at h2
      rw [dbGetById_recordVisit, h1] at h2
      simp only [Option.map_some'] at h2
      cases h2
      split
      · simp
      · exact Nat.le_refl _
  · intro i r r2 h1 h2
    rcases hdb : dbGetById s (jsToLower raw) with _ | row
    · simp only [apiDelete, hdb] at h2
      rw [h1] at h2
      cases h2
      exact Nat.le_refl _
    · simp only [apiDelete, hdb] at h2
      unfold dbDelete dbGetById at h2
      by_cases hi : i = jsToLower raw
      · subst hi
        rw [find?_filter_none] at h2
        · cases h2
        · intro a ha
          simpa using ha
      · rw [find?_filter_of_imp] at h2
        · unfold dbGetById at h1
          rw [h1] at h2
          cases h2
          exact Nat.le_refl _
        · intro a hpa
          have ha : a.id = i := by simpa using hpa
          simp [ha, hi]
  · intro r hr
    have hbeq : (r.id == jsToLower raw) = true := by
      have hr2 := hr
      unfold dbGetById at hr2
      have h3 := List.find?_some hr2
      simpa using h3
    have h1 : redirectGet s raw nowR
        = (.redirect r.url, dbRecordVisit s (jsToLower raw) nowR) := by
      unfold redirectGet
      rw [hr]
    refine ⟨h1, ?_⟩
    rw [h1]
    show dbGetById (dbRecordVisit s (jsToLower raw) nowR) (jsToLower raw) = _
    rw [dbGetById_recordVisit, hr]
    simp only [Option.map_some']
    rw [if_pos hbeq]
  · intro h
    unfold redirectGet
    rw [h]

/-- Witness for C6: a store with one visited row, resolved once through a
case variant of its id. -/
theorem visit_count_behavior_witness :
    dbGetById [⟨"abc", "http://u", 5, 3, none⟩] (jsToLower "ABC")
      = some ⟨"abc", "http://u", 5, 3, none⟩ ∧
    (redirectGet [⟨"abc", "http://u", 5, 3, none⟩] "ABC" 9
      = (.redirect "http://u",
          dbRecordVisit [⟨"abc", "http://u", 5, 3, none⟩] (jsToLower "ABC") 9) ∧
     dbGetById (redirectGet [⟨"abc", "http://u", 5, 3, none⟩] "ABC" 9).2 (jsToLower "ABC")
      = some ⟨"abc", "http://u", 5, 4, some 9⟩) :=
  ⟨by decide,
    (visit_count_behavior [⟨"abc", "http://u", 5, 3, none⟩] (fun _ => true)
      digestZero 7 0 9 "http://u" "ABC" none).2.2.2.2.1
      ⟨"abc", "http://u", 5, 3, none⟩ (by decide)⟩

/-- C7: a custom key accepted by add is stored as its lowercase
normalization, and resolving any case variant of that key afterwards hits
the same record and redirects to its destination. -/
theorem case_insensitive_ids
    (s : Store) (validUrl : String → Bool) (digest : Nat → String)
    (m now now2 : Nat) (url k raw i u2 : String) (s2 : Store)
    (hk : k.isEmpty = false)
    (hadd : apiAdd s validUrl digest m now url (some (.jstr k)) = (.created i u2, s2))
    (hraw : jsToLower raw = jsToLower k) :
    i = jsToLower k ∧ u2 = url ∧
    dbGetById s2 (jsToLower raw) = some ⟨jsToLower k, url, now, 0, none⟩ ∧
    redirectGet s2 raw now2
      = (.redirect url, dbRecordVisit s2 (jsToLower raw) now2) := by
  obtain ⟨rfl, huu, rfl, hnone, _, _⟩ :=
    apiAdd_custom_inv s validUrl digest m now url k i u2 s2 hk hadd
  have hget : dbGetById (s ++ [⟨jsToLower k, url, now, 0, none⟩]) (jsToLower raw)
      = some ⟨jsToLower k, url, now, 0, none⟩ := by
    unfold dbGetById at hnone ⊢
    rw [hraw, List.find?_append, hnone]
    simp
  refine ⟨rfl, huu, hget, ?_⟩
  unfold redirectGet
  rw [hget]

/-- Witness for C7: add with key `MYKEY23`, then resolve `mykey23`. -/
theorem case_insensitive_ids_witness :
    ("MYKEY23" : String).isEmpty = false ∧
    apiAdd [] (fun _ => true) digestZero 7 0 "http://u" (some (.jstr "MYKEY23"))
      = (.created "mykey23" "http://u", [⟨"mykey23", "http://u", 0, 0, none⟩]) ∧
    ("mykey23" = jsToLower "MYKEY23" ∧ "http://u" = "http://u" ∧
     dbGetById [⟨"mykey23", "http://u", 0, 0, none⟩] (jsToLower "mykey23")
       = some ⟨jsToLower "MYKEY23", "http://u", 0, 0, none⟩ ∧
     redirectGet [⟨"mykey23", "http://u", 0, 0, none⟩] "mykey23" 4
       = (.redirect "http://u",
           dbRecordVisit [⟨"mykey23", "http://u", 0, 0, none⟩] (jsToLower "mykey23") 4)) :=
  ⟨by decide, by decide,
    case_insensitive_ids [] (fun _ => true) digestZero 7 0 4 "http://u" "MYKEY23"
      "mykey23" "mykey23" "http://u" [⟨"mykey23", "http://u", 0, 0, none⟩]
      (by decide) (by decide) (by decide)⟩

/-- C8 (counterexample): two successful adds of the same url; the check by
url returns the first record, whose id differs from the one the second add
returned — the round-trip does not hold for every successful add. -/
theorem add_then_check_roundtrip_counterexample :
    (apiAdd [⟨"aaa", "http://u", 0, 0, none⟩] (fun _ => true) digestZero 7 1 "http://u"
        (some (.jstr "BBB"))).1 = .created "bbb" "http://u" ∧
    apiCheck (apiAdd [⟨"aaa", "http://u", 0, 0, none⟩] (fun _ => true) digestZero 7 1
        "http://u" (some (.jstr "BBB"))).2 (fun _ => true) "http://u"
      = .found "aaa" "http://u" 0 none ∧
    (.found "aaa" "http://u" 0 none : CheckResult) ≠ .found "bbb" "http://u" 0 none := by
  decide

/-- C8 (amended): a successful add of a url no record already maps
followed by a check with the same url string returns exists-true with the
same id and destination the add returned. -/
theorem add_then_check_roundtrip
    (s : Store) (validUrl : String → Bool) (digest : Nat → String)
    (m now : Nat) (url : String) (key : Option JVal) (i u2 : String) (s2 : Store)
    (hfresh : ∀ r ∈ s, r.url ≠ url)
    (hadd : apiAdd s validUrl digest m now url key = (.created i u2, s2)) :
    u2 = url ∧ apiCheck s2 validUrl url = .found i url 0 none := by
  obtain ⟨huu, rfl, _, hu, hv⟩ :=
    apiAdd_created_inv s validUrl digest m now url key i u2 s2 hadd
  refine ⟨huu, ?_⟩
  unfold apiCheck
  rw [if_neg (by simp [hu]), if_neg (by simp [hv])]
  have hget : dbGetByUrl (s ++ [⟨i, url, now, 0, none⟩]) url
      = some ⟨i, url, now, 0, none⟩ := by
    unfold dbGetByUrl
    rw [List.find?_append, List.find?_eq_none.mpr (fun r hr => by simpa using hfresh r hr)]
    simp
  rw [hget]

/-- Witness for C8 (amended): the first add of a url round-trips. -/
theorem add_then_check_roundtrip_witness :
    apiAdd [] (fun _ => true) digestZero 7 0 "http://u" none
      = (.created "gaydamb" "http://u", [⟨"gaydamb", "http://u", 0, 0, none⟩]) ∧
    ("http://u" = "http://u" ∧
     apiCheck [⟨"gaydamb", "http://u", 0, 0, none⟩] (fun _ => true) "http://u"
       = .found "gaydamb" "http://u" 0 none) :=
  ⟨by decide,
    add_then_check_roundtrip [] (fun _ => true) digestZero 7 0 "http://u" none
      "gaydamb" "http://u" [⟨"gaydamb", "http://u", 0, 0, none⟩]
      (fun r hr => absurd hr (by simp)) (by decide)⟩

/-- C10: the keyless add never consults records by destination — it
succeeds with a fresh identifier even when a record with the same
destination url exists, leaving two distinct identifiers mapping the same
destination. -/
theorem add_ignores_existing_destination
    (s : Store) (validUrl : String → Bool) (digest : Nat → String)
    (m now : Nat) (url : String) (key : Option JVal) (i u2 : String) (s2 : Store)
    (r0 : RedirectRow)
    (hkey : bodyTruthy key = false)
    (hr0 : r0 ∈ s) (hurl : r0.url = url)
    (hadd : apiAdd s validUrl digest m now url key = (.created i u2, s2)) :
    u2 = url ∧ r0 ∈ s2 ∧ (⟨i, url, now, 0, none⟩ : RedirectRow) ∈ s2 ∧ r0.id ≠ i := by
  obtain ⟨hgen, rfl, rfl⟩ :=
    apiAdd_generated_inv s validUrl digest m now url key i u2 s2 hkey hadd
  have hnone : dbGetById s i = none :=
    (genLoop_some_spec s digest m maxAttempts 0 i hgen).1
  refine ⟨rfl, List.mem_append_left _ hr0, List.mem_append_right _ (by simp), ?_⟩
  intro heq
  have hmem := List.find?_eq_none.mp (by unfold dbGetById at hnone; exact hnone) r0 hr0
  simp [heq] at hmem

/-- Witness for C10: a second keyless add of an already-mapped url. -/
theorem add_ignores_existing_destination_witness :
    bodyTruthy (none : Option JVal) = false ∧
    ("http://u" = "http://u" ∧
     (⟨"aaa", "http://u", 0, 0, none⟩ : RedirectRow)
       ∈ (⟨"aaa", "http://u", 0, 0, none⟩ ::
            ([⟨"gaydamb", "http://u", 1, 0, none⟩] : Store)) ∧
     (⟨"gaydamb", "http://u", 1, 0, none⟩ : RedirectRow)
       ∈ (⟨"aaa", "http://u", 0, 0, none⟩ ::
            ([⟨"gaydamb", "http://u", 1, 0, none⟩] : Store)) ∧
     ("aaa" : String) ≠ "gaydamb") :=
  ⟨rfl,
    by
      have h := add_ignores_existing_destination [⟨"aaa", "http://u", 0, 0, none⟩]
        (fun _ => true) digestZero 7 1 "http://u" none "gaydamb" "http://u"
        [⟨"aaa", "http://u", 0, 0, none⟩, ⟨"gaydamb", "http://u", 1, 0, none⟩]
        ⟨"aaa", "http://u", 0, 0, none⟩ rfl (by simp) rfl (by decide)
      exact h⟩

end QrLocal
